import Mathlib

/-!
Verification of the team-membership core of the DurHack Teamer bot
(`src/main.py`): a two-table relational store (`Teams`, `Users`) and the
command handlers `make`, `join`, `update`, `leave`, `get_table_number`,
plus the `on_guild_channel_delete` cleanup hook and the name/join-code
generators.

The store is embedded shallowly: each SQLite table is a list of rows, and
each `@db_connect_wrapper`-wrapped Python function becomes a pure function
on the store.  Each wrapped function commits its own connection, so a
command handler that calls several of them produces a sequence of
separately-committed store states; where that matters (atomicity of
`/make`) the intermediate states are made explicit.
-/

namespace Teamer

/-- Row of the `Teams` table:
`(team_name TEXT PRIMARY KEY, leader_id INTEGER, table_number TEXT, join_code TEXT, id INTEGER)`. -/
structure TeamRow where
  team_name : String
  leader_id : Nat
  table_number : String
  join_code : String
  id : Nat
deriving DecidableEq, Repr

/-- Row of the `Users` table: `(user_id INTEGER PRIMARY KEY, team_name TEXT)`. -/
structure UserRow where
  user_id : Nat
  team_name : String
deriving DecidableEq, Repr

/-- The whole database: the two tables created by `db_connect_wrapper`. -/
structure Store where
  teams : List TeamRow
  users : List UserRow
deriving DecidableEq, Repr

/-- The empty database, as created on first connection. -/
def emptyStore : Store := ⟨[], []⟩

/-- Errors raised by the store-level helpers: `sqlite3.IntegrityError`
(primary-key violation) and the `ValueError` re-raised by `add_user_to_team`. -/
inductive DbErr where
  | integrityError
  | valueError
deriving DecidableEq, Repr

/-- `get_current_teams`: `SELECT team_name FROM Teams`. -/
def get_current_teams (s : Store) : List String :=
  s.teams.map (fun r => r.team_name)

/-- `on_which_team`: first `Users` row for `user_id`, returning its
`team_name`, or `''` when there is none. -/
def on_which_team (user_id : Nat) (s : Store) : String :=
  match s.users.find? (fun r => r.user_id = user_id) with
  | some r => r.team_name
  | none => ""

/-- `create_team`: `INSERT INTO Teams ...`.  `team_name` is the primary key,
so inserting an existing name raises `sqlite3.IntegrityError` (uncaught in
the source); otherwise the row is appended. -/
def create_team (team_name : String) (leader_id : Nat) (table_number : String)
    (join_code : String) (channel_id : Nat) (s : Store) : Except DbErr Store :=
  if s.teams.any (fun r => r.team_name = team_name) then
    .error .integrityError
  else
    .ok { s with teams := s.teams ++ [⟨team_name, leader_id, table_number, join_code, channel_id⟩] }

/-- `add_user_to_team`: `INSERT INTO Users ...`; `user_id` is the primary
key, and the `sqlite3.IntegrityError` on a duplicate is re-raised as
`ValueError` (the user is already on a team). -/
def add_user_to_team (user_id : Nat) (team_name : String) (s : Store) : Except DbErr Store :=
  if s.users.any (fun r => r.user_id = user_id) then
    .error .valueError
  else
    .ok { s with users := s.users ++ [⟨user_id, team_name⟩] }

/-- `delete_team_from_db`: `DELETE FROM Teams WHERE team_name = ?` then
`DELETE FROM Users WHERE team_name = ?`, both in one wrapped call. -/
def delete_team_from_db (team_name : String) (s : Store) : Store :=
  { teams := s.teams.filter (fun r => ¬ r.team_name = team_name),
    users := s.users.filter (fun r => ¬ r.team_name = team_name) }

/-- `drop_user`: `DELETE FROM Users WHERE user_id = ?`. -/
def drop_user (user_id : Nat) (s : Store) : Store :=
  { s with users := s.users.filter (fun r => ¬ r.user_id = user_id) }

/-- `count_members`: `SELECT COUNT(*) FROM Users WHERE team_name = ?`. -/
def count_members (team_name : String) (s : Store) : Nat :=
  (s.users.filter (fun r => r.team_name = team_name)).length

/-- `get_team_leader`: `SELECT leader_id FROM Teams WHERE team_name = ?`,
then `fetchone()[0]`.  `fetchone()` returning no row makes the source raise;
that partiality is modelled with `Option`. -/
def get_team_leader (team_name : String) (s : Store) : Option Nat :=
  (s.teams.find? (fun r => r.team_name = team_name)).map (fun r => r.leader_id)

/-- `update_leader`: `UPDATE Teams SET leader_id = ? WHERE team_name = ?`. -/
def update_leader (team_name : String) (leader_id : Nat) (s : Store) : Store :=
  { s with teams := s.teams.map (fun r =>
      if r.team_name = team_name then { r with leader_id := leader_id } else r) }

/-- `update_table_num`: `UPDATE Teams SET table_number = ? WHERE team_name = ?`. -/
def update_table_num (team_name : String) (table_number : String) (s : Store) : Store :=
  { s with teams := s.teams.map (fun r =>
      if r.team_name = team_name then { r with table_number := table_number } else r) }

/-- `resolve_join_code`: `SELECT team_name, id FROM Teams WHERE join_code = ?`,
`fetchone()`. -/
def resolve_join_code (join_code : String) (s : Store) : Option (String × Nat) :=
  (s.teams.find? (fun r => r.join_code = join_code)).map (fun r => (r.team_name, r.id))

/-- `get_table_from_db`: `SELECT table_number FROM Teams WHERE team_name = ?`,
then `fetchone()[0]`; `none` is the case where `fetchone()` returns no row
and the subscript raises. -/
def get_table_from_db (team_name : String) (s : Store) : Option String :=
  (s.teams.find? (fun r => r.team_name = team_name)).map (fun r => r.table_number)

/-- ASCII lowercasing of one character, as Python's `str.lower` acts on the
ASCII-only names this program generates and compares. -/
def lowerChar (c : Char) : Char :=
  if 'A' ≤ c ∧ c ≤ 'Z' then Char.ofNat (c.toNat + 32) else c

/-- Python's `str.lower()` on the ASCII strings handled by this program. -/
def strLower (s : String) : String := ⟨s.data.map lowerChar⟩

/-- Retry loop shared by `gen_team_name` and `make_join_code`:
`while not name or name in current: name = make_name()`.  `rand i` is the
i-th random draw (an output of `make_name`/`make_code`); `fuel` totalizes
the Python `while` loop, which has no bound of its own, so `none` means the
loop is still running after `fuel` draws. -/
def genLoop (rand : Nat → String) (current : List String) (i fuel : Nat) : Option String :=
  match fuel with
  | 0 => none
  | Nat.succ fuel' =>
    let name := rand i
    if name = "" ∨ name ∈ current then genLoop rand current (i + 1) fuel'
    else some name

/-- `gen_team_name`: draws random names until one is not among the live
team names read from the store. -/
def gen_team_name (rand : Nat → String) (fuel : Nat) (s : Store) : Option String :=
  genLoop rand (get_current_teams s) 0 fuel

/-- Live join codes: `SELECT join_code FROM Teams`. -/
def get_current_codes (s : Store) : List String :=
  s.teams.map (fun r => r.join_code)

/-- `make_join_code`: draws random codes until one is not among the live
join codes read from the store. -/
def make_join_code (rand : Nat → String) (fuel : Nat) (s : Store) : Option String :=
  genLoop rand (get_current_codes s) 0 fuel

/-- Outcome of the `/make` command as seen at the store. -/
inductive MakeResult where
  | alreadyOnTeam
  | dbError (e : DbErr)
  | created (team_name : String)
deriving DecidableEq, Repr

/-- The `/make` handler's store effect.  `team_name` and `join_code` stand
for the values returned by `gen_team_name` and `make_join_code`.  The two
store writes `create_team` and `add_user_to_team` each run in their own
committed connection: when `add_user_to_team` fails, the state `s1` with
the already-committed team row is what persists. -/
def make (user_id : Nat) (table_number : String) (team_name join_code : String)
    (channel_id : Nat) (s : Store) : MakeResult × Store :=
  if on_which_team user_id s ≠ "" then (.alreadyOnTeam, s)
  else
    match create_team team_name user_id table_number join_code channel_id s with
    | .error e => (.dbError e, s)
    | .ok s1 =>
      match add_user_to_team user_id team_name s1 with
      | .error e => (.dbError e, s1)
      | .ok s2 => (.created team_name, s2)

/-- Outcome of the `/join` command as seen at the store. -/
inductive JoinResult where
  | alreadyOnTeam
  | invalidJoinCode
  | dbError (e : DbErr)
  | joined (team_name : String)
deriving DecidableEq, Repr

/-- The `/join` handler's store effect: on-team check, join-code
resolution, then `add_user_to_team`. -/
def join (user_id : Nat) (join_code : String) (s : Store) : JoinResult × Store :=
  if on_which_team user_id s ≠ "" then (.alreadyOnTeam, s)
  else
    match resolve_join_code join_code s with
    | none => (.invalidJoinCode, s)
    | some tc =>
      match add_user_to_team user_id tc.1 s with
      | .error e => (.dbError e, s)
      | .ok s1 => (.joined tc.1, s1)

/-- Outcome of the `/leave` command as seen at the store. -/
inductive LeaveResult where
  | notOnTeam
  | leaderMustTransferFirst
  | teamRowMissing
  | left (team_name : String) (team_deleted : Bool)
deriving DecidableEq, Repr

/-- The `/leave` handler's store effect.  `teamRowMissing` is the branch
where `get_team_leader`'s `fetchone()[0]` raises because the user's team
has no `Teams` row. -/
def leave (user_id : Nat) (s : Store) : LeaveResult × Store :=
  let t := on_which_team user_id s
  if t = "" then (.notOnTeam, s)
  else
    match get_team_leader t s with
    | none => (.teamRowMissing, s)
    | some lid =>
      if lid = user_id ∧ count_members t s > 1 then (.leaderMustTransferFirst, s)
      else
        let s1 := drop_user user_id s
        if count_members t s1 = 0 then (.left t true, delete_team_from_db t s1)
        else (.left t false, s1)

/-- Outcome of the `/update` command as seen at the store. -/
inductive UpdateResult where
  | noArguments
  | notOnTeam
  | notLeader
  | notTeamChannel
  | teamRowMissing
  | newLeaderNotMember
  | alreadyLeader
  | updated
deriving DecidableEq, Repr

/-- Shared tail of `/update`: the optional table-number write. -/
def updateTableStep (team_name : String) (table_number : Option String)
    (s : Store) : UpdateResult × Store :=
  match table_number with
  | some tn => (.updated, update_table_num team_name tn s)
  | none => (.updated, s)

/-- Body of `/update` once `team_name` and `leader_id` are resolved: the
new-leader membership check, the self-transfer check, then the writes. -/
def updateBody (user_id : Nat) (team_name : String) (leader_id : Nat)
    (new_leader : Option Nat) (table_number : Option String)
    (s : Store) : UpdateResult × Store :=
  match new_leader with
  | some nl =>
    if on_which_team nl s ≠ on_which_team leader_id s then (.newLeaderNotMember, s)
    else if user_id = nl then (.alreadyLeader, s)
    else updateTableStep team_name table_number (update_leader team_name nl s)
  | none => updateTableStep team_name table_number s

/-- The `/update` handler's store effect.  Non-moderators must be on a team
and be its leader; moderators act on the team named by the channel they are
in.  `teamRowMissing` is `get_team_leader`'s `fetchone()[0]` raising. -/
def update (user_id : Nat) (isModerator : Bool) (channel_name : String)
    (new_leader : Option Nat) (table_number : Option String)
    (s : Store) : UpdateResult × Store :=
  if new_leader = none ∧ table_number = none then (.noArguments, s)
  else if isModerator = false then
    let t := on_which_team user_id s
    if t = "" then (.notOnTeam, s)
    else
      match get_team_leader t s with
      | none => (.teamRowMissing, s)
      | some lid =>
        if lid ≠ user_id then (.notLeader, s)
        else updateBody user_id t lid new_leader table_number s
  else
    if channel_name ∉ get_current_teams s then (.notTeamChannel, s)
    else
      match get_team_leader channel_name s with
      | none => (.teamRowMissing, s)
      | some lid => updateBody user_id channel_name lid new_leader table_number s

/-- Outcome of the `/get_table_number` command. -/
inductive TableResult where
  | invalidTeamName
  | tableIs (table_number : String)
  | uncaughtError
deriving DecidableEq, Repr

/-- The `/get_table_number` handler: the existence check lowercases the
input (`team_name.lower() not in get_current_teams()`), but the retrieval
`get_table_from_db(team_name)` uses the input verbatim; `uncaughtError` is
its `fetchone()[0]` raising when no row matches, which lands in the generic
command error handler. -/
def get_table_number (team_name : String) (s : Store) : TableResult :=
  if strLower team_name ∉ get_current_teams s then .invalidTeamName
  else
    match get_table_from_db team_name s with
    | some t => .tableIs t
    | none => .uncaughtError

/-- The `on_guild_channel_delete` event hook's store effect: delete the
team named like the removed channel, if it is live; otherwise do nothing. -/
def on_guild_channel_delete (channel_name : String) (s : Store) : Store :=
  if channel_name ∈ get_current_teams s then delete_team_from_db channel_name s
  else s

/-- A user-driven membership operation, for reasoning over arbitrary
command sequences.  The name/code arguments of `opMake` stand for the
generator outputs. -/
inductive Op where
  | opMake (user_id : Nat) (table_number team_name join_code : String) (channel_id : Nat)
  | opJoin (user_id : Nat) (join_code : String)
  | opLeave (user_id : Nat)

/-- Final committed store state of one command. -/
def applyOp (s : Store) : Op → Store
  | .opMake u tbl name code chan => (make u tbl name code chan s).2
  | .opJoin u code => (join u code s).2
  | .opLeave u => (leave u s).2

/-- Store state after a sequence of commands starting from the empty store. -/
def runOps (ops : List Op) : Store := ops.foldl applyOp emptyStore

/-- Invariant: the `Users` table maps each user to at most one team
(its `user_id` column, the primary key, has no duplicates). -/
def usersUnique (s : Store) : Prop :=
  (s.users.map (fun r => r.user_id)).Nodup

theorem mem_current_teams {n : String} {s : Store} :
    n ∈ get_current_teams s ↔ ∃ r ∈ s.teams, r.team_name = n := by
  simp [get_current_teams]

theorem not_mem_teams_delete (n : String) (s : Store) :
    n ∉ get_current_teams (delete_team_from_db n s) := by
  simp only [get_current_teams, delete_team_from_db, List.mem_map]
  rintro ⟨r, hr, hname⟩
  rw [List.mem_filter] at hr
  have := hr.2
  simp only [decide_eq_true_eq] at this
  exact this hname

/-- C8: `on_guild_channel_delete` is idempotent on the store: once a first
call has deleted the team named like the channel, a second call for the
same name finds no live team and leaves the store unchanged (the handler's
membership guard makes the second call a no-op, not an error). -/
theorem on_guild_channel_delete_idem (n : String) (s : Store) :
    on_guild_channel_delete n (on_guild_channel_delete n s) = on_guild_channel_delete n s := by
  by_cases h : n ∈ get_current_teams s
  · simp [on_guild_channel_delete, h, not_mem_teams_delete]
  · simp [on_guild_channel_delete, h]

/-- C7: when the join code resolves to no live team, `/join` by an
unaffiliated user reports `InvalidJoinCode`, and in every case the store is
left exactly as it was: no membership row is created and no team row is
modified. -/
theorem join_invalid_code (u : Nat) (code : String) (s : Store)
    (hres : resolve_join_code code s = none) :
    (on_which_team u s = "" → (join u code s).1 = JoinResult.invalidJoinCode) ∧
      (join u code s).2 = s := by
  by_cases h : on_which_team u s = ""
  · simp [join, h, hres]
  · simp [join, h]

/-- Store with one live team `foos` (join code `AB1CD23`) and its sole
member, user 1. -/
def stFoos : Store :=
  ⟨[⟨"foos", 1, "A1", "AB1CD23", 5⟩], [⟨1, "foos"⟩]⟩

/-- Witness for C7: user 2 is unaffiliated in `stFoos` and the code
`ZZ9ZZ99` resolves to no team, so `/join` reports `InvalidJoinCode` and the
store is unchanged. -/
theorem join_invalid_code_witness :
    (on_which_team 2 stFoos = "" →
      (join 2 "ZZ9ZZ99" stFoos).1 = JoinResult.invalidJoinCode) ∧
      (join 2 "ZZ9ZZ99" stFoos).2 = stFoos :=
  join_invalid_code 2 "ZZ9ZZ99" stFoos (by decide)

theorem create_team_ok_users {n : String} {lid : Nat} {tbl code : String} {chan : Nat}
    {s s' : Store} (h : create_team n lid tbl code chan s = Except.ok s') :
    s'.users = s.users := by
  unfold create_team at h
  by_cases hg : s.teams.any (fun r => r.team_name = n)
  · simp [hg] at h
  · simp only [hg, Bool.false_eq_true, if_false, Except.ok.injEq] at h
    subst h
    rfl

theorem add_user_ok {u : Nat} {t : String} {s s' : Store}
    (h : add_user_to_team u t s = Except.ok s') :
    s'.users = s.users ++ [⟨u, t⟩] ∧ ∀ r ∈ s.users, r.user_id ≠ u := by
  unfold add_user_to_team at h
  by_cases hg : s.users.any (fun r => r.user_id = u)
  · simp [hg] at h
  · simp only [hg, Bool.false_eq_true, if_false, Except.ok.injEq] at h
    subst h
    refine ⟨rfl, ?_⟩
    intro r hr he
    exact hg (List.any_eq_true.mpr ⟨r, hr, by simp [he]⟩)

theorem usersUnique_of_add {u : Nat} {t : String} {s s' : Store}
    (h : add_user_to_team u t s = Except.ok s') (hs : usersUnique s) :
    usersUnique s' := by
  obtain ⟨he, hf⟩ := add_user_ok h
  unfold usersUnique
  rw [he]
  simp only [List.map_append, List.map_cons, List.map_nil]
  rw [List.nodup_append]
  refine ⟨hs, List.nodup_singleton u, ?_⟩
  intro a ha hb
  simp only [List.mem_singleton] at hb
  subst hb
  obtain ⟨r, hr, hru⟩ := List.mem_map.mp ha
  exact hf r hr hru

theorem usersUnique_filter (p : UserRow → Bool) {l : List UserRow}
    (h : (l.map (fun r => r.user_id)).Nodup) :
    ((l.filter p).map (fun r => r.user_id)).Nodup :=
  List.Nodup.sublist (List.Sublist.map _ (List.filter_sublist _)) h

theorem usersUnique_drop (u : Nat) {s : Store} (h : usersUnique s) :
    usersUnique (drop_user u s) :=
  usersUnique_filter _ h

theorem usersUnique_delete (n : String) {s : Store} (h : usersUnique s) :
    usersUnique (delete_team_from_db n s) :=
  usersUnique_filter _ h

theorem usersUnique_applyOp (op : Op) {s : Store} (h : usersUnique s) :
    usersUnique (applyOp s op) := by
  cases op with
  | opMake u tbl name code chan =>
    simp only [applyOp, make]
    by_cases h1 : on_which_team u s ≠ ""
    · rw [if_pos h1]
      exact h
    · rw [if_neg h1]
      cases hc : create_team name u tbl code chan s with
      | error e => exact h
      | ok s1 =>
        have hu1 : usersUnique s1 := by
          unfold usersUnique
          rw [create_team_ok_users hc]
          exact h
        dsimp only
        cases ha : add_user_to_team u name s1 with
        | error e => exact hu1
        | ok s2 => exact usersUnique_of_add ha hu1
  | opJoin u code =>
    simp only [applyOp, join]
    by_cases h1 : on_which_team u s ≠ ""
    · rw [if_pos h1]
      exact h
    · rw [if_neg h1]
      cases hr : resolve_join_code code s with
      | none => exact h
      | some tc =>
        dsimp only
        cases ha : add_user_to_team u tc.1 s with
        | error e => exact h
        | ok s1 => exact usersUnique_of_add ha h
  | opLeave u =>
    simp only [applyOp, leave]
    by_cases h1 : on_which_team u s = ""
    · rw [if_pos h1]
      exact h
    · rw [if_neg h1]
      cases hl : get_team_leader (on_which_team u s) s with
      | none => exact h
      | some lid =>
        dsimp only
        by_cases h2 : lid = u ∧ count_members (on_which_team u s) s > 1
        · rw [if_pos h2]
          exact h
        · rw [if_neg h2]
          by_cases h3 : count_members (on_which_team u s) (drop_user u s) = 0
          · rw [if_pos h3]
            exact usersUnique_delete _ (usersUnique_drop u h)
          · rw [if_neg h3]
            exact usersUnique_drop u h

theorem usersUnique_foldl (ops : List Op) {s : Store} (h : usersUnique s) :
    usersUnique (ops.foldl applyOp s) := by
  induction ops generalizing s with
  | nil => exact h
  | cons op rest ih => exact ih (usersUnique_applyOp op h)

/-- C2: after any sequence of `/make`, `/join` and `/leave` commands
starting from the empty store, the `Users` table holds at most one row per
user (its `user_id` column has no duplicates); since every point of a
sequence is `runOps` of a prefix, the mapping from user to team has at
most one entry per user at every point. -/
theorem usersUnique_invariant (ops : List Op) : usersUnique (runOps ops) :=
  usersUnique_foldl ops (by simp [usersUnique, emptyStore])

theorem on_which_team_found {u : Nat} {t : String} {s : Store}
    (h : on_which_team u s = t) (hne : t ≠ "") :
    ∃ r, s.users.find? (fun r => r.user_id = u) = some r ∧ r.user_id = u ∧ r.team_name = t := by
  unfold on_which_team at h
  cases hf : s.users.find? (fun r => r.user_id = u) with
  | none =>
    rw [hf] at h
    dsimp only at h
    exact absurd h.symm hne
  | some r =>
    rw [hf] at h
    dsimp only at h
    have hp := List.find?_some hf
    simp only [decide_eq_true_eq] at hp
    exact ⟨r, rfl, hp, h⟩

theorem count_members_drop_sole {u : Nat} {t : String} {s : Store} {r : UserRow}
    (hmem : r ∈ s.users) (hu : r.user_id = u) (ht : r.team_name = t)
    (hc : count_members t s = 1) : count_members t (drop_user u s) = 0 := by
  unfold count_members at hc ⊢
  unfold drop_user
  obtain ⟨r0, h0⟩ := List.length_eq_one.mp hc
  have hrmem : r ∈ s.users.filter (fun x => x.team_name = t) :=
    List.mem_filter.mpr ⟨hmem, by simp [ht]⟩
  rw [h0, List.mem_singleton] at hrmem
  rw [List.length_eq_zero, List.filter_eq_nil_iff]
  intro x hx
  rw [List.mem_filter] at hx
  obtain ⟨hxmem, hxne⟩ := hx
  simp only [decide_eq_true_eq] at hxne ⊢
  intro hxt
  have hx0 : x ∈ s.users.filter (fun y => y.team_name = t) :=
    List.mem_filter.mpr ⟨hxmem, by simp [hxt]⟩
  rw [h0, List.mem_singleton] at hx0
  apply hxne
  rw [hx0, ← hrmem, hu]

theorem on_which_team_drop_delete (u : Nat) (t : String) (s : Store) :
    on_which_team u (delete_team_from_db t (drop_user u s)) = "" := by
  unfold on_which_team delete_team_from_db drop_user
  have hnone : ((s.users.filter (fun r => ¬ r.user_id = u)).filter
      (fun r => ¬ r.team_name = t)).find? (fun r => r.user_id = u) = none := by
    rw [List.find?_eq_none]
    intro x hx
    rw [List.mem_filter] at hx
    have hx1 := List.mem_filter.mp hx.1
    simpa using hx1.2
  rw [hnone]

/-- C3: `/leave` by a user on team `t` (whose `Teams` row exists and names
leader `lid`): if the user is the leader and another member remains, the
command is rejected with the leader-must-transfer message and the store is
unchanged; if the user is the sole remaining member (leader or not), the
command succeeds, drops the membership row and deletes the team, after
which `t` is no longer a live team name and the user's team lookup is
absent (`''`). -/
theorem leave_team_semantics (u : Nat) (t : String) (lid : Nat) (s : Store)
    (ht : on_which_team u s = t) (hne : t ≠ "")
    (hl : get_team_leader t s = some lid) :
    (lid = u → count_members t s > 1 →
      leave u s = (LeaveResult.leaderMustTransferFirst, s)) ∧
    (count_members t s = 1 →
      leave u s = (LeaveResult.left t true, delete_team_from_db t (drop_user u s)) ∧
      t ∉ get_current_teams (leave u s).2 ∧
      on_which_team u (leave u s).2 = "") := by
  have hstep : leave u s =
      (if lid = u ∧ count_members t s > 1 then (LeaveResult.leaderMustTransferFirst, s)
       else if count_members t (drop_user u s) = 0 then
         (LeaveResult.left t true, delete_team_from_db t (drop_user u s))
       else (LeaveResult.left t false, drop_user u s)) := by
    unfold leave
    rw [ht, if_neg hne, hl]
  constructor
  · intro hlid hcnt
    rw [hstep, if_pos ⟨hlid, hcnt⟩]
  · intro hc1
    obtain ⟨r, hfind, hru, hrt⟩ := on_which_team_found ht hne
    have hr : r ∈ s.users := List.mem_of_find?_eq_some hfind
    have hzero : count_members t (drop_user u s) = 0 :=
      count_members_drop_sole hr hru hrt hc1
    have hneg : ¬ (lid = u ∧ count_members t s > 1) := by
      rintro ⟨-, hgt⟩
      omega
    have heq : leave u s =
        (LeaveResult.left t true, delete_team_from_db t (drop_user u s)) := by
      rw [hstep, if_neg hneg, if_pos hzero]
    refine ⟨heq, ?_, ?_⟩
    · rw [heq]
      exact not_mem_teams_delete t (drop_user u s)
    · rw [heq]
      exact on_which_team_drop_delete u t s

/-- Store with team `foos` led by user 1, who has a fellow member, user 2. -/
def stLeaderPair : Store :=
  ⟨[⟨"foos", 1, "A1", "AB1CD23", 5⟩], [⟨1, "foos"⟩, ⟨2, "foos"⟩]⟩

/-- Witness for C3: in `stLeaderPair`, leader 1 cannot leave while member 2
remains; in `stFoos`, sole member 1 leaves and team `foos` is deleted. -/
theorem leave_team_semantics_witness :
    leave 1 stLeaderPair = (LeaveResult.leaderMustTransferFirst, stLeaderPair) ∧
    leave 1 stFoos = (LeaveResult.left "foos" true,
      delete_team_from_db "foos" (drop_user 1 stFoos)) := by
  constructor
  · exact (leave_team_semantics 1 "foos" 1 stLeaderPair (by decide) (by decide)
      (by decide)).1 rfl (by decide)
  · exact ((leave_team_semantics 1 "foos" 1 stFoos (by decide) (by decide)
      (by decide)).2 (by decide)).1

theorem updateBody_self (u lid : Nat) (t : String) (tbl : Option String) (s : Store) :
    updateBody u t lid (some u) tbl s =
      (if on_which_team u s ≠ on_which_team lid s then (UpdateResult.newLeaderNotMember, s)
       else (UpdateResult.alreadyLeader, s)) := by
  unfold updateBody
  dsimp only
  by_cases h : on_which_team u s ≠ on_which_team lid s
  · rw [if_pos h, if_pos h]
  · rw [if_neg h, if_neg h, if_pos rfl]

/-- Store with team `bars` led by its sole member, user 2. -/
def stBars : Store :=
  ⟨[⟨"bars", 2, "B2", "CD2EF34", 6⟩], [⟨2, "bars"⟩]⟩

/-- Counterexample to C6: a self-transfer does not fail with `AlreadyLeader`
regardless of the actor's membership state — a moderator who is not a member
of team `bars` naming themself gets the new-leader-not-member rejection, and
an unaffiliated non-moderator gets the not-on-team rejection; neither is
`AlreadyLeader`. -/
theorem update_self_counterexample :
    (update 1 true "bars" (some 1) none stBars).1 = UpdateResult.newLeaderNotMember ∧
    (update 1 true "bars" (some 1) none stBars).1 ≠ UpdateResult.alreadyLeader ∧
    (update 1 false "" (some 1) none emptyStore).1 = UpdateResult.notOnTeam ∧
    (update 1 false "" (some 1) none emptyStore).1 ≠ UpdateResult.alreadyLeader := by
  decide

/-- C6 as amended: a self-transfer never succeeds and never changes the
store (so the leader field is unchanged); it is rejected with
`AlreadyLeader` when the actor is the current leader of their team, and
with the earlier membership/leadership rejection otherwise (for instance,
an unaffiliated actor is rejected as not on a team). -/
theorem update_self_transfer (u : Nat) (isMod : Bool) (ch : String)
    (tbl : Option String) (s : Store) :
    (update u isMod ch (some u) tbl s).2 = s ∧
    (update u isMod ch (some u) tbl s).1 ≠ UpdateResult.updated ∧
    (isMod = false → on_which_team u s ≠ "" →
      get_team_leader (on_which_team u s) s = some u →
      (update u isMod ch (some u) tbl s).1 = UpdateResult.alreadyLeader) := by
  have hne0 : ¬ ((some u : Option Nat) = none ∧ tbl = none) := by simp
  unfold update
  rw [if_neg hne0]
  cases isMod with
  | false =>
    rw [if_pos rfl]
    by_cases h1 : on_which_team u s = ""
    · rw [if_pos h1]
      refine ⟨rfl, ?_, fun _ hne _ => absurd h1 hne⟩
      intro hc
      exact UpdateResult.noConfusion hc
    · rw [if_neg h1]
      cases hl : get_team_leader (on_which_team u s) s with
      | none =>
        refine ⟨rfl, ?_, ?_⟩
        · intro hc
          exact UpdateResult.noConfusion hc
        · intro _ _ hsome
          exact Option.noConfusion hsome
      | some lid =>
        dsimp only
        by_cases h2 : lid ≠ u
        · rw [if_pos h2]
          refine ⟨rfl, ?_, ?_⟩
          · intro hc
            exact UpdateResult.noConfusion hc
          · intro _ _ hsome
            exact absurd (Option.some.inj hsome) h2
        · rw [if_neg h2]
          have h2' : lid = u := not_not.mp h2
          rw [updateBody_self, if_neg (not_not_intro (by rw [h2']))]
          refine ⟨rfl, ?_, fun _ _ _ => rfl⟩
          intro hc
          exact UpdateResult.noConfusion hc
  | true =>
    rw [if_neg (by simp)]
    by_cases h1 : ch ∉ get_current_teams s
    · rw [if_pos h1]
      refine ⟨rfl, ?_, fun hmod => Bool.noConfusion hmod⟩
      intro hc
      exact UpdateResult.noConfusion hc
    · rw [if_neg h1]
      cases hl : get_team_leader ch s with
      | none =>
        refine ⟨rfl, ?_, fun hmod => Bool.noConfusion hmod⟩
        intro hc
        exact UpdateResult.noConfusion hc
      | some lid =>
        dsimp only
        rw [updateBody_self]
        by_cases h2 : on_which_team u s ≠ on_which_team lid s
        · rw [if_pos h2]
          refine ⟨rfl, ?_, fun hmod => Bool.noConfusion hmod⟩
          intro hc
          exact UpdateResult.noConfusion hc
        · rw [if_neg h2]
          refine ⟨rfl, ?_, fun hmod => Bool.noConfusion hmod⟩
          intro hc
          exact UpdateResult.noConfusion hc

/-- Witness for C6 as amended: in `stFoos`, leader 1 naming themself is
rejected with `AlreadyLeader` and the store is unchanged. -/
theorem update_self_transfer_witness :
    (update 1 false "" (some 1) none stFoos).2 = stFoos ∧
    (update 1 false "" (some 1) none stFoos).1 = UpdateResult.alreadyLeader :=
  ⟨(update_self_transfer 1 false "" none stFoos).1,
   (update_self_transfer 1 false "" none stFoos).2.2 rfl (by decide) (by decide)⟩

theorem teams_any_eq_false {name : String} {s : Store} (hn : name ∉ get_current_teams s) :
    s.teams.any (fun r => r.team_name = name) = false := by
  rw [Bool.eq_false_iff]
  intro hany
  obtain ⟨r, hr, hp⟩ := List.any_eq_true.mp hany
  simp only [decide_eq_true_eq] at hp
  exact hn (mem_current_teams.mpr ⟨r, hr, hp⟩)

theorem users_any_eq_false {u : Nat} {s : Store}
    (hu : s.users.find? (fun r => r.user_id = u) = none) :
    s.users.any (fun r => r.user_id = u) = false := by
  rw [Bool.eq_false_iff]
  intro hany
  obtain ⟨r, hr, hp⟩ := List.any_eq_true.mp hany
  exact List.find?_eq_none.mp hu r hr hp

theorem teams_find?_eq_none {name : String} {s : Store} (hn : name ∉ get_current_teams s) :
    s.teams.find? (fun r => r.team_name = name) = none := by
  rw [List.find?_eq_none]
  intro r hr hp
  simp only [decide_eq_true_eq] at hp
  exact hn (mem_current_teams.mpr ⟨r, hr, hp⟩)

theorem create_team_ok_of {name : String} {lid : Nat} {tbl code : String} {chan : Nat}
    {s : Store} (hn : name ∉ get_current_teams s) :
    create_team name lid tbl code chan s =
      Except.ok ⟨s.teams ++ [⟨name, lid, tbl, code, chan⟩], s.users⟩ := by
  unfold create_team
  rw [teams_any_eq_false hn, if_neg (by simp)]

theorem add_user_ok_of {u : Nat} {t : String} {s : Store}
    (hu : s.users.find? (fun r => r.user_id = u) = none) :
    add_user_to_team u t s = Except.ok ⟨s.teams, s.users ++ [⟨u, t⟩]⟩ := by
  unfold add_user_to_team
  rw [users_any_eq_false hu, if_neg (by simp)]

theorem find?_team_append {name : String} {l : List TeamRow} (r : TeamRow)
    (hn : l.find? (fun x => x.team_name = name) = none) (hr : r.team_name = name) :
    (l ++ [r]).find? (fun x => x.team_name = name) = some r := by
  rw [List.find?_append, hn, Option.none_or]
  rw [List.find?_cons_of_pos]
  simp [hr]

theorem on_which_team_of_none {u : Nat} {s : Store}
    (hu : s.users.find? (fun r => r.user_id = u) = none) :
    on_which_team u s = "" := by
  unfold on_which_team
  rw [hu]

/-- C9: a `/make` by an unaffiliated user with table number `tbl` succeeds
(the generated name is fresh and lowercase, as `gen_team_name` guarantees),
and a subsequent `/get_table_number` on the returned team name yields
exactly `tbl` — the table number stored at creation is the one retrieved. -/
theorem make_lookup_roundtrip (u : Nat) (tbl name code : String) (chan : Nat) (s : Store)
    (hu : s.users.find? (fun r => r.user_id = u) = none)
    (hn : name ∉ get_current_teams s)
    (hlow : strLower name = name) :
    (make u tbl name code chan s).1 = MakeResult.created name ∧
    get_table_number name (make u tbl name code chan s).2 = TableResult.tableIs tbl := by
  have hmake : make u tbl name code chan s =
      (MakeResult.created name,
        ⟨s.teams ++ [⟨name, u, tbl, code, chan⟩], s.users ++ [⟨u, name⟩]⟩) := by
    unfold make
    rw [on_which_team_of_none hu, if_neg (by simp), create_team_ok_of hn]
    dsimp only
    have hu1 : (⟨s.teams ++ [⟨name, u, tbl, code, chan⟩], s.users⟩ : Store).users.find?
        (fun r => r.user_id = u) = none := hu
    rw [add_user_ok_of hu1]
  refine ⟨by rw [hmake], ?_⟩
  rw [hmake]
  have hmem : name ∈
      get_current_teams ⟨s.teams ++ [⟨name, u, tbl, code, chan⟩], s.users ++ [⟨u, name⟩]⟩ :=
    mem_current_teams.mpr ⟨⟨name, u, tbl, code, chan⟩,
      List.mem_append.mpr (Or.inr (by simp)), rfl⟩
  unfold get_table_number
  rw [hlow, if_neg (not_not_intro hmem)]
  have hfind : get_table_from_db name
      ⟨s.teams ++ [⟨name, u, tbl, code, chan⟩], s.users ++ [⟨u, name⟩]⟩ =
      some tbl := by
    unfold get_table_from_db
    rw [find?_team_append _ (teams_find?_eq_none hn) rfl]
    rfl
  rw [hfind]

/-- Witness for C9: from the empty store, user 1 makes a team with table
number `B12`; looking the returned name up yields `B12`. -/
theorem make_lookup_roundtrip_witness :
    (make 1 "B12" "ancient-amber-ants" "AB1CD23" 7 emptyStore).1 =
      MakeResult.created "ancient-amber-ants" ∧
    get_table_number "ancient-amber-ants"
      (make 1 "B12" "ancient-amber-ants" "AB1CD23" 7 emptyStore).2 =
      TableResult.tableIs "B12" :=
  make_lookup_roundtrip 1 "B12" "ancient-amber-ants" "AB1CD23" 7 emptyStore
    rfl (by decide) (by decide)

/-- C10: for a store whose live team names are all lowercase (as
`gen_team_name` produces), calling `/get_table_number` with an input that
lowercases to a live team name but is not itself that stored name passes
the existence check (done on the lowercased input) while the verbatim
retrieval finds no row, so the command hits the unguarded
`fetchone()[0]` error branch instead of returning a table number or the
invalid-team-name rejection. -/
theorem lookup_case_mismatch (input : String) (s : Store)
    (hall : ∀ r ∈ s.teams, strLower r.team_name = r.team_name)
    (hmem : strLower input ∈ get_current_teams s)
    (hne : strLower input ≠ input) :
    get_table_number input s = TableResult.uncaughtError := by
  have hnotin : input ∉ get_current_teams s := by
    intro hin
    obtain ⟨r, hr, hrn⟩ := mem_current_teams.mp hin
    apply hne
    rw [← hrn]
    exact hall r hr
  unfold get_table_number
  rw [if_neg (not_not_intro hmem)]
  have hfind : get_table_from_db input s = none := by
    unfold get_table_from_db
    rw [teams_find?_eq_none hnotin]
    rfl
  rw [hfind]

/-- Witness for C10: `stFoos` stores the lowercase team name `foos`;
querying `Foos` passes the lowercased existence check, finds no verbatim
row, and ends in the unguarded error branch. -/
theorem lookup_case_mismatch_witness :
    get_table_number "Foos" stFoos = TableResult.uncaughtError :=
  lookup_case_mismatch "Foos" stFoos (by decide) (by decide) (by decide)

theorem genLoop_none_of_exhausted (rand : Nat → String) (current : List String)
    (hex : ∀ i, rand i = "" ∨ rand i ∈ current) :
    ∀ i fuel, genLoop rand current i fuel = none := by
  intro i fuel
  induction fuel generalizing i with
  | zero => rfl
  | succ n ih =>
    unfold genLoop
    rw [if_pos (hex i)]
    exact ih (i + 1)

/-- C4 refuted on the code: when every value the random source can produce
is already live in the store, `gen_team_name` and `make_join_code` never
leave their `while` loops — for every number of iterations the loop is
still running (`none`), and the model has no `ResourceExhausted` (or any
other error) outcome at all, matching the unbounded `while` in the source. -/
theorem generators_diverge_when_exhausted (randN randC : Nat → String) (s : Store)
    (hteams : ∀ i, randN i ∈ get_current_teams s)
    (hcodes : ∀ i, randC i ∈ get_current_codes s) :
    (∀ fuel, gen_team_name randN fuel s = none) ∧
    (∀ fuel, make_join_code randC fuel s = none) := by
  constructor
  · intro fuel
    exact genLoop_none_of_exhausted _ _ (fun i => Or.inr (hteams i)) 0 fuel
  · intro fuel
    exact genLoop_none_of_exhausted _ _ (fun i => Or.inr (hcodes i)) 0 fuel

/-- Witness for the C4 divergence theorem: in `stFoos`, a random source
that can only produce the live name `foos` (resp. the live code `AB1CD23`)
keeps both generators looping, still unfinished after 30 iterations. -/
theorem generators_diverge_when_exhausted_witness :
    gen_team_name (fun _ => "foos") 30 stFoos = none ∧
    make_join_code (fun _ => "AB1CD23") 30 stFoos = none :=
  ⟨(generators_diverge_when_exhausted (fun _ => "foos") (fun _ => "AB1CD23") stFoos
      (fun _ => (by decide : "foos" ∈ get_current_teams stFoos))
      (fun _ => (by decide : "AB1CD23" ∈ get_current_codes stFoos))).1 30,
   (generators_diverge_when_exhausted (fun _ => "foos") (fun _ => "AB1CD23") stFoos
      (fun _ => (by decide : "foos" ∈ get_current_teams stFoos))
      (fun _ => (by decide : "AB1CD23" ∈ get_current_codes stFoos))).2 30⟩

theorem genLoop_fresh {rand : Nat → String} {current : List String} {name : String}
    {i fuel : Nat} (h : genLoop rand current i fuel = some name) :
    name ∉ current := by
  induction fuel generalizing i with
  | zero => exact Option.noConfusion h
  | succ n ih =>
    unfold genLoop at h
    by_cases hc : rand i = "" ∨ rand i ∈ current
    · rw [if_pos hc] at h
      exact ih h
    · rw [if_neg hc] at h
      push_neg at hc
      rw [← Option.some.inj h]
      exact hc.2

/-- Counterexample to C5 as stated: two `gen_team_name` calls with no
intervening store change can return the same value even though at least two
distinct free names remain — the generator checks candidates only against
the store, not against its own previous outputs, so N calls need not yield
N pairwise-distinct values. -/
theorem generators_distinct_counterexample :
    ¬ (∀ (r1 r2 : Nat → String) (s : Store) (n1 n2 : String),
        gen_team_name r1 1 s = some n1 → gen_team_name r2 1 s = some n2 →
        (∃ a b : String, a ≠ b ∧ a ∉ get_current_teams s ∧ b ∉ get_current_teams s) →
        n1 ≠ n2) := by
  intro h
  exact h (fun _ => "newts") (fun _ => "newts") emptyStore "newts" "newts" rfl rfl
    ⟨"a", "b", by decide, by decide, by decide⟩ rfl

/-- C5 as amended: each generator call returns a value absent from the
live store at the moment of the call (never a live team name / join code),
and two calls are guaranteed distinct when the first value has been added
to the store before the second call — distinctness across calls is only
relative to the store, not to earlier outputs. -/
theorem generators_fresh (randN randC rand2 : Nat → String) (fuelN fuelC fuel2 : Nat)
    (s s' : Store) (n1 n2 c : String) :
    (gen_team_name randN fuelN s = some n1 → n1 ∉ get_current_teams s) ∧
    (make_join_code randC fuelC s = some c → c ∉ get_current_codes s) ∧
    (gen_team_name randN fuelN s = some n1 → gen_team_name rand2 fuel2 s' = some n2 →
      n1 ∈ get_current_teams s' → n1 ≠ n2) := by
  refine ⟨fun h => genLoop_fresh h, fun h => genLoop_fresh h, ?_⟩
  intro _ h2 hmem heq
  exact genLoop_fresh h2 (heq ▸ hmem)

/-- Store holding the single team `newts` with sole member 1, as left by a
`/make` that consumed the generated name `newts`. -/
def stNewts : Store :=
  ⟨[⟨"newts", 1, "A1", "ZY9XW87", 8⟩], [⟨1, "newts"⟩]⟩

/-- Witness for C5 as amended: in `stFoos` the generated name `newts` and
code `XY1ZW45` are not live, and once `newts` is stored (`stNewts`) a
second generated name `barbs` must differ from it. -/
theorem generators_fresh_witness :
    "newts" ∉ get_current_teams stFoos ∧
    "XY1ZW45" ∉ get_current_codes stFoos ∧
    "newts" ≠ "barbs" :=
  ⟨(generators_fresh (fun _ => "newts") (fun _ => "XY1ZW45") (fun _ => "barbs")
      1 1 1 stFoos stNewts "newts" "barbs" "XY1ZW45").1 (by decide),
   (generators_fresh (fun _ => "newts") (fun _ => "XY1ZW45") (fun _ => "barbs")
      1 1 1 stFoos stNewts "newts" "barbs" "XY1ZW45").2.1 (by decide),
   (generators_fresh (fun _ => "newts") (fun _ => "XY1ZW45") (fun _ => "barbs")
      1 1 1 stFoos stNewts "newts" "barbs" "XY1ZW45").2.2 (by decide) (by decide)
      (by decide)⟩

/-- Committed store state right after `/make`'s `create_team` transaction:
team `newts` exists with designated leader 1, but no membership row for
user 1 exists yet (each wrapped call commits its own connection). -/
def stMakeMid : Store :=
  ⟨[⟨"bars", 2, "B2", "CD2EF34", 6⟩, ⟨"newts", 1, "B12", "XY1ZW45", 9⟩],
   [⟨2, "bars"⟩]⟩

/-- Committed store state after a `/join` by user 1 lands between `/make`'s
two transactions (the handler awaits platform calls between them): user 1
is now on `bars`, and team `newts` still has no membership row. -/
def stMakeRace : Store :=
  ⟨[⟨"bars", 2, "B2", "CD2EF34", 6⟩, ⟨"newts", 1, "B12", "XY1ZW45", 9⟩],
   [⟨2, "bars"⟩, ⟨1, "bars"⟩]⟩

/-- C1 refuted on the code: `/make` is not all-or-nothing.  Starting from
`stBars` with user 1 unaffiliated, `create_team` commits the `newts` team
row on its own (`stMakeMid` is a durable state with the team row and no
leader membership row); after an interleaved `/join` puts user 1 on `bars`,
`add_user_to_team` fails with the `ValueError`, and the committed state
`stMakeRace` keeps the `newts` team row with zero membership rows — the
team creation is never rolled back. -/
theorem make_not_atomic :
    on_which_team 1 stBars = "" ∧
    create_team "newts" 1 "B12" "XY1ZW45" 9 stBars = Except.ok stMakeMid ∧
    count_members "newts" stMakeMid = 0 ∧
    join 1 "CD2EF34" stMakeMid = (JoinResult.joined "bars", stMakeRace) ∧
    add_user_to_team 1 "newts" stMakeRace = Except.error DbErr.valueError ∧
    "newts" ∈ get_current_teams stMakeRace ∧
    count_members "newts" stMakeRace = 0 :=
  ⟨rfl, rfl, rfl, rfl, rfl, by decide, rfl⟩

end Teamer
